import Mathlib

/-!
Verification of the polar-grid spatial transform and sampling pipeline of the
slitherio-scraper browser extension (src/extension/content/injected-script.js).

The JavaScript source computes with IEEE doubles and Float32Array cells; the
embedding idealises those as exact real (for the transcendental polar
transform) and rational (for the purely arithmetic grid/EMA updates)
arithmetic.  Each definition is translated line by line from the source
function of the same name.
-/

namespace Slither

/-- JS `Math.hypot(u, v)` as used in `getPolarIndex` (line 55). -/
noncomputable def hypot (u v : ℝ) : ℝ := Real.sqrt (u ^ 2 + v ^ 2)

/-- JS `Math.atan2(y, x)`, realised as the argument of the complex number
`x + y i`, with range `(-π, π]`. -/
noncomputable def atan2 (y x : ℝ) : ℝ := Complex.arg ⟨x, y⟩

/-- `angularWarp` (injected-script.js lines 47-52):
`sign(phi) * (log1p(alpha * (|phi|/π)) / log1p(alpha)) * π`. -/
noncomputable def angularWarp (phi alpha : ℝ) : ℝ :=
  Real.sign phi * (Real.log (1 + alpha * (|phi| / Real.pi)) / Real.log (1 + alpha)) * Real.pi

/-- `getPolarIndex` (injected-script.js lines 54-67).  Returns `none` exactly
when the radius is out of the representable range, otherwise the clamped
angular and radial bin indices. -/
noncomputable def getPolarIndex (u v : ℝ) (K M : ℕ) (rmin rmax alpha : ℝ) :
    Option (ℤ × ℤ) :=
  let r := hypot u v
  if r > rmax ∨ r < rmin then none
  else
    let phi := atan2 v u
    let warpedPhi := angularWarp phi alpha
    let theta := (warpedPhi + Real.pi) / (2 * Real.pi)
    let k := min ((K : ℤ) - 1) (max 0 ⌊(K : ℝ) * theta⌋)
    let logFactor := Real.log (r / rmin) / Real.log (rmax / rmin)
    let j := min ((M : ℤ) - 1) (max 0 ⌊(M : ℝ) * logFactor⌋)
    some (k, j)

/-- In-range characterisation of `getPolarIndex`. -/
lemma getPolarIndex_of_mem (u v : ℝ) (K M : ℕ) (rmin rmax alpha : ℝ)
    (hlo : rmin ≤ hypot u v) (hhi : hypot u v ≤ rmax) :
    getPolarIndex u v K M rmin rmax alpha =
      some (min ((K : ℤ) - 1) (max 0
              ⌊(K : ℝ) * ((angularWarp (atan2 v u) alpha + Real.pi) / (2 * Real.pi))⌋),
            min ((M : ℤ) - 1) (max 0
              ⌊(M : ℝ) * (Real.log (hypot u v / rmin) / Real.log (rmax / rmin))⌋)) := by
  simp only [getPolarIndex]
  rw [if_neg]
  push_neg
  exact ⟨hhi, hlo⟩

/-- **C1**: `getPolarIndex` returns `null` precisely outside the radial range
`[rMin, rMax]` of `hypot(u,v)`, and a (non-null) index pair whenever the
radius is within range; the null result is an ordinary return value of the
pure function, not an error. -/
theorem getPolarIndex_range_guard (u v : ℝ) (K M : ℕ) (rmin rmax alpha : ℝ) :
    (hypot u v < rmin ∨ rmax < hypot u v →
       getPolarIndex u v K M rmin rmax alpha = none) ∧
    (rmin ≤ hypot u v → hypot u v ≤ rmax →
       ∃ k j, getPolarIndex u v K M rmin rmax alpha = some (k, j)) := by
  constructor
  · intro h
    simp only [getPolarIndex]
    rw [if_pos]
    exact h.symm.imp (fun h1 => h1) (fun h1 => h1)
  · intro hlo hhi
    exact ⟨_, _, getPolarIndex_of_mem u v K M rmin rmax alpha hlo hhi⟩

/-- Concrete evaluation of `hypot` on a 3-4-5 triangle. -/
lemma hypot_three_four : hypot 3 4 = 5 := by
  have h : (3 : ℝ) ^ 2 + 4 ^ 2 = 5 ^ 2 := by norm_num
  rw [hypot, h, Real.sqrt_sq (by norm_num : (0:ℝ) ≤ 5)]

/-- Witness for C1: at `(u,v) = (3,4)` the radius is `5`; with `rmin = 6` the
result is `none`, and with `rmin = 1, rmax = 10` it is a pair. -/
theorem getPolarIndex_range_guard_witness :
    getPolarIndex 3 4 64 24 6 3200 6 = none ∧
    ∃ k j, getPolarIndex 3 4 64 24 1 10 6 = some (k, j) := by
  constructor
  · exact (getPolarIndex_range_guard 3 4 64 24 6 3200 6).1
      (Or.inl (by rw [hypot_three_four]; norm_num))
  · exact (getPolarIndex_range_guard 3 4 64 24 1 10 6).2
      (by rw [hypot_three_four]; norm_num) (by rw [hypot_three_four]; norm_num)

/-- **C2**: for any in-range offset and bin counts `A ≥ 1, R ≥ 1` (with the
configured `0 < rMin < rMax`, `alpha ≥ 1`), the returned indices satisfy
`0 ≤ k < A` and `0 ≤ j < R`. -/
theorem getPolarIndex_bounds (u v : ℝ) (K M : ℕ) (rmin rmax alpha : ℝ)
    (hK : 1 ≤ K) (hM : 1 ≤ M) (hrmin : 0 < rmin) (hrange : rmin < rmax)
    (halpha : 1 ≤ alpha)
    (hlo : rmin ≤ hypot u v) (hhi : hypot u v ≤ rmax) :
    ∃ k j, getPolarIndex u v K M rmin rmax alpha = some (k, j) ∧
      0 ≤ k ∧ k < (K : ℤ) ∧ 0 ≤ j ∧ j < (M : ℤ) := by
  refine ⟨_, _, getPolarIndex_of_mem u v K M rmin rmax alpha hlo hhi, ?_, ?_, ?_, ?_⟩
  · exact le_min (by omega) (le_max_left 0 _)
  · exact lt_of_le_of_lt (min_le_left _ _) (by omega)
  · exact le_min (by omega) (le_max_left 0 _)
  · exact lt_of_le_of_lt (min_le_left _ _) (by omega)

/-- `hypot` of a nonnegative abscissa with zero ordinate. -/
lemma hypot_of_nonneg (x : ℝ) (hx : 0 ≤ x) : hypot x 0 = x := by
  rw [hypot]
  norm_num
  rw [Real.sqrt_sq hx]

/-- Witness for C2: a food item 100 units straight ahead with the default
configuration gets in-bounds indices. -/
theorem getPolarIndex_bounds_witness :
    ∃ k j, getPolarIndex 100 0 64 24 60 3200 6 = some (k, j) ∧
      0 ≤ k ∧ k < ((64 : ℕ) : ℤ) ∧ 0 ≤ j ∧ j < ((24 : ℕ) : ℤ) :=
  getPolarIndex_bounds 100 0 64 24 60 3200 6 (by norm_num) (by norm_num)
    (by norm_num) (by norm_num) (by norm_num)
    (by rw [hypot_of_nonneg 100 (by norm_num)]; norm_num)
    (by rw [hypot_of_nonneg 100 (by norm_num)]; norm_num)

/-- **C6**: radial monotonicity — for two in-range offsets at the same angle
with radii `r1 ≤ r2`, the radial bin index of the first is at most that of
the second. -/
theorem getPolarIndex_radial_monotone (u1 v1 u2 v2 : ℝ) (K M : ℕ)
    (rmin rmax alpha : ℝ) (hrmin : 0 < rmin) (hrr : rmin < rmax)
    (h1lo : rmin ≤ hypot u1 v1) (h1hi : hypot u1 v1 ≤ rmax)
    (h2lo : rmin ≤ hypot u2 v2) (h2hi : hypot u2 v2 ≤ rmax)
    (hang : atan2 v1 u1 = atan2 v2 u2)
    (hr : hypot u1 v1 ≤ hypot u2 v2) :
    ∃ k1 j1 k2 j2,
      getPolarIndex u1 v1 K M rmin rmax alpha = some (k1, j1) ∧
      getPolarIndex u2 v2 K M rmin rmax alpha = some (k2, j2) ∧
      j1 ≤ j2 := by
  refine ⟨_, _, _, _, getPolarIndex_of_mem u1 v1 K M rmin rmax alpha h1lo h1hi,
    getPolarIndex_of_mem u2 v2 K M rmin rmax alpha h2lo h2hi, ?_⟩
  have hL : 0 < Real.log (rmax / rmin) :=
    Real.log_pos ((one_lt_div hrmin).mpr hrr)
  have hlog : Real.log (hypot u1 v1 / rmin) ≤ Real.log (hypot u2 v2 / rmin) :=
    Real.log_le_log (div_pos (lt_of_lt_of_le hrmin h1lo) hrmin)
      ((div_le_div_right hrmin).mpr hr)
  have hfac : (M : ℝ) * (Real.log (hypot u1 v1 / rmin) / Real.log (rmax / rmin)) ≤
      (M : ℝ) * (Real.log (hypot u2 v2 / rmin) / Real.log (rmax / rmin)) :=
    mul_le_mul_of_nonneg_left ((div_le_div_right hL).mpr hlog) (Nat.cast_nonneg M)
  exact min_le_min le_rfl (max_le_max le_rfl (Int.floor_le_floor hfac))

/-- The angle of a point on the positive `u` axis is `0`. -/
lemma atan2_zero_of_nonneg (x : ℝ) (hx : 0 ≤ x) : atan2 0 x = 0 := by
  rw [atan2]
  have h : (⟨x, 0⟩ : ℂ) = (x : ℂ) := by simp [Complex.ext_iff]
  rw [h]
  exact Complex.arg_ofReal_of_nonneg hx

/-- Witness for C6: offsets `(100,0)` and `(200,0)` (same angle, growing
radius) with the default configuration. -/
theorem getPolarIndex_radial_monotone_witness :
    ∃ k1 j1 k2 j2,
      getPolarIndex 100 0 64 24 60 3200 6 = some (k1, j1) ∧
      getPolarIndex 200 0 64 24 60 3200 6 = some (k2, j2) ∧
      j1 ≤ j2 :=
  getPolarIndex_radial_monotone 100 0 200 0 64 24 60 3200 6
    (by norm_num) (by norm_num)
    (by rw [hypot_of_nonneg 100 (by norm_num)]; norm_num)
    (by rw [hypot_of_nonneg 100 (by norm_num)]; norm_num)
    (by rw [hypot_of_nonneg 200 (by norm_num)]; norm_num)
    (by rw [hypot_of_nonneg 200 (by norm_num)]; norm_num)
    (by rw [atan2_zero_of_nonneg 100 (by norm_num),
            atan2_zero_of_nonneg 200 (by norm_num)])
    (by rw [hypot_of_nonneg 100 (by norm_num),
            hypot_of_nonneg 200 (by norm_num)]; norm_num)

/-- The angular warp is an odd function of the angle. -/
lemma angularWarp_neg (phi alpha : ℝ) :
    angularWarp (-phi) alpha = -angularWarp phi alpha := by
  rw [angularWarp, angularWarp, Real.sign_neg, abs_neg]; ring

/-- For `|phi| ≤ π` and `alpha ≥ 1` the warped angle stays in `[-π, π]`. -/
lemma angularWarp_abs_le (phi alpha : ℝ) (hphi : |phi| ≤ Real.pi)
    (ha : 1 ≤ alpha) : |angularWarp phi alpha| ≤ Real.pi := by
  have hx0 : 0 ≤ |phi| / Real.pi := div_nonneg (abs_nonneg phi) Real.pi_pos.le
  have hx1 : |phi| / Real.pi ≤ 1 :=
    (div_le_one Real.pi_pos).mpr hphi
  have hnum0 : 0 ≤ Real.log (1 + alpha * (|phi| / Real.pi)) :=
    Real.log_nonneg (by nlinarith)
  have hden : 0 < Real.log (1 + alpha) := Real.log_pos (by linarith)
  have hy1 : Real.log (1 + alpha * (|phi| / Real.pi)) / Real.log (1 + alpha) ≤ 1 := by
    rw [div_le_one hden]
    exact Real.log_le_log (by nlinarith) (by nlinarith)
  have hsign : |Real.sign phi| ≤ 1 := by
    rcases Real.sign_apply_eq phi with h | h | h <;> rw [h] <;> norm_num
  rw [angularWarp, abs_mul, abs_mul, abs_of_pos Real.pi_pos,
    abs_of_nonneg (div_nonneg hnum0 hden.le)]
  calc |Real.sign phi| * (Real.log (1 + alpha * (|phi| / Real.pi)) / Real.log (1 + alpha)) * Real.pi
      ≤ 1 * 1 * Real.pi := by
        apply mul_le_mul_of_nonneg_right _ Real.pi_pos.le
        exact mul_le_mul hsign hy1 (div_nonneg hnum0 hden.le) (by norm_num)
  _ = Real.pi := by ring

/-- At `phi = π` the warp is the identity. -/
lemma angularWarp_pi (alpha : ℝ) (ha : 1 ≤ alpha) :
    angularWarp Real.pi alpha = Real.pi := by
  have h1 : |Real.pi| / Real.pi = 1 := by
    rw [abs_of_pos Real.pi_pos, div_self Real.pi_ne_zero]
  have h2 : 0 < Real.log (1 + alpha) := Real.log_pos (by linarith)
  rw [angularWarp, Real.sign_of_pos Real.pi_pos, h1, mul_one,
    div_self (ne_of_gt h2), one_mul, one_mul]

/-- Clamped-bin complementarity: the angular bins of `theta` and `1 - theta`
sum to `K - 1` or `K`. -/
lemma bin_sum (K : ℕ) (hK : 1 ≤ K) (theta : ℝ)
    (h0 : 0 ≤ theta) (h1 : theta ≤ 1) :
    min ((K : ℤ) - 1) (max 0 ⌊(K : ℝ) * theta⌋) +
      min ((K : ℤ) - 1) (max 0 ⌊(K : ℝ) * (1 - theta)⌋) = (K : ℤ) - 1 ∨
    min ((K : ℤ) - 1) (max 0 ⌊(K : ℝ) * theta⌋) +
      min ((K : ℤ) - 1) (max 0 ⌊(K : ℝ) * (1 - theta)⌋) = (K : ℤ) := by
  set a := ⌊(K : ℝ) * theta⌋ with ha_def
  set b := ⌊(K : ℝ) * (1 - theta)⌋ with hb_def
  set c := ⌈(K : ℝ) * theta⌉ with hc_def
  have hKpos : (0 : ℝ) ≤ (K : ℝ) := Nat.cast_nonneg K
  have ha0 : 0 ≤ a := Int.floor_nonneg.mpr (mul_nonneg hKpos h0)
  have haK : a ≤ (K : ℤ) := by
    have h : (K : ℝ) * theta ≤ ((K : ℤ) : ℝ) := by push_cast; nlinarith
    calc a ≤ ⌊((K : ℤ) : ℝ)⌋ := Int.floor_le_floor h
    _ = (K : ℤ) := Int.floor_intCast _
  have hb0 : 0 ≤ b := Int.floor_nonneg.mpr (mul_nonneg hKpos (by linarith))
  have hb_eq : b = (K : ℤ) - c := by
    have h : (K : ℝ) * (1 - theta) = ((K : ℤ) : ℝ) + -((K : ℝ) * theta) := by
      push_cast; ring
    rw [hb_def, h, Int.floor_int_add, Int.floor_neg, ← hc_def]
    ring
  have hac : a ≤ c := Int.floor_le_ceil _
  have hca : c ≤ a + 1 := Int.ceil_le_floor_add_one _
  rcases le_total a ((K : ℤ) - 1) with hA | hA <;>
    rcases le_total b ((K : ℤ) - 1) with hB | hB
  · rw [max_eq_right ha0, max_eq_right hb0, min_eq_right hA, min_eq_right hB]
    omega
  · rw [max_eq_right ha0, max_eq_right hb0, min_eq_right hA, min_eq_left hB]
    omega
  · rw [max_eq_right ha0, max_eq_right hb0, min_eq_left hA, min_eq_right hB]
    omega
  · rw [max_eq_right ha0, max_eq_right hb0, min_eq_left hA, min_eq_left hB]
    omega

/-- **C7**: angular-warp odd symmetry — for any in-range offset and
`alpha ≥ 1`, the angular bins of `(u, v)` and `(u, -v)` are reflections of
each other across the forward direction, up to one bin of floor rounding,
measured cyclically over the `K` angular bins: the cyclic residue of
`k + k' - (K-1)` is `0`, `1`, or `K-1`. -/
theorem getPolarIndex_angular_mirror (u v : ℝ) (K M : ℕ)
    (rmin rmax alpha : ℝ) (hK : 1 ≤ K) (ha : 1 ≤ alpha)
    (hlo : rmin ≤ hypot u v) (hhi : hypot u v ≤ rmax) :
    ∃ k j k' j',
      getPolarIndex u v K M rmin rmax alpha = some (k, j) ∧
      getPolarIndex u (-v) K M rmin rmax alpha = some (k', j') ∧
      ((k + k' + 1 - (K : ℤ)) % (K : ℤ) = 0 ∨
       (k + k' + 1 - (K : ℤ)) % (K : ℤ) = 1 ∨
       (k + k' + 1 - (K : ℤ)) % (K : ℤ) = (K : ℤ) - 1) := by
  have hyv : hypot u (-v) = hypot u v := by
    rw [hypot, hypot, neg_sq]
  have e1 := getPolarIndex_of_mem u v K M rmin rmax alpha hlo hhi
  have e2 := getPolarIndex_of_mem u (-v) K M rmin rmax alpha
    (by rwa [hyv]) (by rwa [hyv])
  refine ⟨_, _, _, _, e1, e2, ?_⟩
  by_cases hpi : atan2 v u = Real.pi
  · -- the offset lies exactly on the negative `u` axis: then `v = 0`, the two
    -- inputs coincide, and both angular bins equal `K - 1`
    have hv : v = 0 := by
      have h := Complex.arg_eq_pi_iff.mp hpi
      exact h.2
    have hsame : atan2 (-v) u = atan2 v u := by rw [hv, neg_zero]
    have htheta : (angularWarp (atan2 v u) alpha + Real.pi) / (2 * Real.pi) = 1 := by
      rw [hpi, angularWarp_pi alpha ha]
      field_simp
      ring
    have hk : min ((K : ℤ) - 1)
        (max 0 ⌊(K : ℝ) * ((angularWarp (atan2 v u) alpha + Real.pi) / (2 * Real.pi))⌋) =
        (K : ℤ) - 1 := by
      rw [htheta, mul_one, Int.floor_natCast,
        max_eq_right (by exact_mod_cast Nat.zero_le K)]
      exact min_eq_left (by omega)
    rw [hsame, hk]
    right; right
    have h : ((K : ℤ) - 1) + ((K : ℤ) - 1) + 1 - (K : ℤ) = (K : ℤ) - 1 := by ring
    rw [h]
    exact Int.emod_eq_of_lt (by omega) (by omega)
  · -- generic case: `atan2(-v, u) = -atan2(v, u)` and the two normalised
    -- angles are complementary
    have hconj : atan2 (-v) u = -atan2 v u := by
      have hpi2 : ¬ Complex.arg ⟨u, v⟩ = Real.pi := hpi
      have hc : (⟨u, -v⟩ : ℂ) = (starRingEnd ℂ) ⟨u, v⟩ := by
        apply Complex.ext
        · rw [Complex.conj_re]
        · rw [Complex.conj_im]
      rw [atan2, hc, Complex.arg_conj, if_neg hpi2]
      rfl
    have hphi_abs : |atan2 v u| ≤ Real.pi :=
      abs_le.mpr ⟨(Complex.neg_pi_lt_arg _).le, Complex.arg_le_pi _⟩
    have hwarp_abs : |angularWarp (atan2 v u) alpha| ≤ Real.pi :=
      angularWarp_abs_le (atan2 v u) alpha hphi_abs ha
    have htheta' : (angularWarp (atan2 (-v) u) alpha + Real.pi) / (2 * Real.pi) =
        1 - (angularWarp (atan2 v u) alpha + Real.pi) / (2 * Real.pi) := by
      rw [hconj, angularWarp_neg]
      field_simp
      ring
    set theta := (angularWarp (atan2 v u) alpha + Real.pi) / (2 * Real.pi)
      with htheta_def
    have h0 : 0 ≤ theta := by
      apply div_nonneg _ (by positivity)
      have := abs_le.mp hwarp_abs
      linarith [this.1]
    have h1 : theta ≤ 1 := by
      rw [div_le_one (by positivity)]
      have := abs_le.mp hwarp_abs
      linarith [this.2]
    rw [htheta']
    rcases bin_sum K hK theta h0 h1 with hsum | hsum
    · left
      rw [show ∀ x y : ℤ, x + y + 1 - (K : ℤ) = (x + y) - ((K : ℤ) - 1) from
        fun x y => by ring, hsum]
      simp
    · right
      rw [show ∀ x y : ℤ, x + y + 1 - (K : ℤ) = (x + y) - ((K : ℤ) - 1) from
        fun x y => by ring, hsum]
      have h : (K : ℤ) - ((K : ℤ) - 1) = 1 := by ring
      rw [h]
      by_cases hK1 : K = 1
      · right; subst hK1; norm_num
      · left
        exact Int.emod_eq_of_lt (by norm_num) (by omega)

/-- Witness for C7: the offset `(0, 100)` (directly to the side) with the
default configuration. -/
theorem getPolarIndex_angular_mirror_witness :
    ∃ k j k' j',
      getPolarIndex 0 100 64 24 60 3200 6 = some (k, j) ∧
      getPolarIndex 0 (-100) 64 24 60 3200 6 = some (k', j') ∧
      ((k + k' + 1 - ((64 : ℕ) : ℤ)) % ((64 : ℕ) : ℤ) = 0 ∨
       (k + k' + 1 - ((64 : ℕ) : ℤ)) % ((64 : ℕ) : ℤ) = 1 ∨
       (k + k' + 1 - ((64 : ℕ) : ℤ)) % ((64 : ℕ) : ℤ) = ((64 : ℕ) : ℤ) - 1) := by
  have h100 : hypot 0 100 = 100 := by
    rw [hypot]
    norm_num
    rw [show (10000 : ℝ) = 100 ^ 2 by norm_num, Real.sqrt_sq (by norm_num : (0:ℝ) ≤ 100)]
  exact getPolarIndex_angular_mirror 0 100 64 24 60 3200 6 (by norm_num)
    (by norm_num) (by rw [h100]; norm_num) (by rw [h100]; norm_num)

/-! ## Grid accumulation (Float32Array cells idealised as exact rationals) -/

/-- `createPolarGrid` (injected-script.js lines 69-71): a zeroed dense array
of size `ANGULAR_BINS * RADIAL_BINS * CHANNELS`. -/
def createPolarGrid (A R C : ℕ) : Array ℚ := Array.mkArray (A * R * C) 0

/-- The flat cell index `(j * ANGULAR_BINS + k) * CHANNELS + channel`
computed by `splatToGrid` (injected-script.js line 74). -/
def splatIndex (A C k j channel : ℕ) : ℕ := (j * A + k) * C + channel

/-- `splatToGrid` (injected-script.js lines 73-76):
`grid[idx] = min(1.0, grid[idx] + weight)`.  A `Float32Array` write with an
out-of-range index is a silent no-op, which `Array.setD` models. -/
def splatToGrid (A C : ℕ) (grid : Array ℚ) (k j channel : ℕ) (weight : ℚ) :
    Array ℚ :=
  let idx := splatIndex A C k j channel
  grid.setD idx (min 1 (grid.getD idx 0 + weight))

lemma splatToGrid_size (A C : ℕ) (grid : Array ℚ) (k j channel : ℕ) (w : ℚ) :
    (splatToGrid A C grid k j channel w).size = grid.size := by
  simp [splatToGrid, Array.size_setD]

/-- The splatted cell after one splat. -/
lemma splatToGrid_getD (A C : ℕ) (grid : Array ℚ) (k j channel : ℕ) (w : ℚ)
    (h : splatIndex A C k j channel < grid.size) :
    (splatToGrid A C grid k j channel w).getD (splatIndex A C k j channel) 0 =
      min 1 (grid.getD (splatIndex A C k j channel) 0 + w) := by
  simp [splatToGrid, Array.setD, Array.getD, h, Array.size_set, Array.get_set_eq]

/-- The in-bounds flat index bound, shared by C3 and C9. -/
lemma splatIndex_lt (A R C k j channel : ℕ)
    (hk : k < A) (hj : j < R) (hc : channel < C) :
    splatIndex A C k j channel < A * R * C := by
  have h1 : j * A + k < R * A := by
    calc j * A + k < j * A + A := by omega
    _ = (j + 1) * A := by ring
    _ ≤ R * A := Nat.mul_le_mul_right A (by omega)
  calc (j * A + k) * C + channel < (j * A + k) * C + C := by omega
  _ = (j * A + k + 1) * C := by ring
  _ ≤ R * A * C := Nat.mul_le_mul_right C (by omega)
  _ = A * R * C := by ring

/-- Saturating addition on one cell: folding `c ↦ min 1 (c + w)` over
nonnegative weights from a value in `[0,1]` gives `min 1 (c + Σw)`. -/
lemma foldl_satAdd (ws : List ℚ) : ∀ c : ℚ, 0 ≤ c → c ≤ 1 → (∀ w ∈ ws, 0 ≤ w) →
    ws.foldl (fun c w => min 1 (c + w)) c = min 1 (c + ws.sum) := by
  induction ws with
  | nil => intro c _ h1 _; simpa using min_eq_right h1
  | cons w ws ih =>
    intro c h0 h1 hw
    have hw0 : 0 ≤ w := hw w (List.mem_cons_self w ws)
    have hws : ∀ x ∈ ws, 0 ≤ x := fun x hx => hw x (List.mem_cons_of_mem w hx)
    have hS : 0 ≤ ws.sum := List.sum_nonneg hws
    have step0 : 0 ≤ min 1 (c + w) := le_min (by norm_num) (by linarith)
    have step1 : min 1 (c + w) ≤ 1 := min_le_left _ _
    rw [List.foldl_cons, ih (min 1 (c + w)) step0 step1 hws, List.sum_cons]
    rcases le_or_lt (c + w) 1 with hcw | hcw
    · rw [min_eq_right hcw]; ring_nf
    · rw [min_eq_left (le_of_lt hcw)]
      rw [min_eq_left (by linarith), min_eq_left (by linarith)]

/-- Folding `splatToGrid` over a weight list acts on the addressed cell
exactly as the one-cell saturating fold. -/
lemma foldl_splat_getD (A C k j channel : ℕ) (ws : List ℚ) :
    ∀ grid : Array ℚ, splatIndex A C k j channel < grid.size →
    (ws.foldl (fun g w => splatToGrid A C g k j channel w) grid).getD
        (splatIndex A C k j channel) 0 =
      ws.foldl (fun c w => min 1 (c + w)) (grid.getD (splatIndex A C k j channel) 0) := by
  induction ws with
  | nil => intro grid _; rfl
  | cons w ws ih =>
    intro grid hlt
    rw [List.foldl_cons, List.foldl_cons,
      ih (splatToGrid A C grid k j channel w) (by rw [splatToGrid_size]; exact hlt),
      splatToGrid_getD A C grid k j channel w hlt]

/-- **C3**: `splatToGrid` performs saturating additive accumulation
`cell = min(1.0, cell + weight)`, and accumulating any sequence of
nonnegative weights with sum exceeding `1.0` into one cell of a fresh grid
leaves that cell at exactly `1.0`. -/
theorem splatToGrid_saturates (A R C k j channel : ℕ) (ws : List ℚ)
    (hk : k < A) (hj : j < R) (hc : channel < C)
    (hw : ∀ w ∈ ws, 0 ≤ w) (hsum : 1 < ws.sum) :
    (∀ (grid : Array ℚ) (w : ℚ), splatIndex A C k j channel < grid.size →
        (splatToGrid A C grid k j channel w).getD (splatIndex A C k j channel) 0 =
          min 1 (grid.getD (splatIndex A C k j channel) 0 + w)) ∧
    (ws.foldl (fun g w => splatToGrid A C g k j channel w)
        (createPolarGrid A R C)).getD (splatIndex A C k j channel) 0 = 1 := by
  have hlt : splatIndex A C k j channel < (createPolarGrid A R C).size := by
    simpa [createPolarGrid] using splatIndex_lt A R C k j channel hk hj hc
  constructor
  · intro grid w h; exact splatToGrid_getD A C grid k j channel w h
  · have hcell : (createPolarGrid A R C).getD (splatIndex A C k j channel) 0 = 0 := by
      simp only [createPolarGrid, Array.getD]
      split
      · simp [Array.getElem_mkArray]
      · rfl
    rw [foldl_splat_getD A C k j channel ws (createPolarGrid A R C) hlt, hcell,
      foldl_satAdd ws 0 le_rfl (by norm_num) hw]
    rw [zero_add]
    exact min_eq_left (le_of_lt hsum)

/-- Witness for C3: weights `3/5` and `1/2` (sum `11/10 > 1`) splatted into cell
`(k,j,channel) = (0,0,0)` of the default `64×24×4` grid saturate it at `1`. -/
theorem splatToGrid_saturates_witness :
    (∀ (grid : Array ℚ) (w : ℚ), splatIndex 64 4 0 0 0 < grid.size →
        (splatToGrid 64 4 grid 0 0 0 w).getD (splatIndex 64 4 0 0 0) 0 =
          min 1 (grid.getD (splatIndex 64 4 0 0 0) 0 + w)) ∧
    ([(3:ℚ)/5, 1/2].foldl (fun g w => splatToGrid 64 4 g 0 0 0 w)
        (createPolarGrid 64 24 4)).getD (splatIndex 64 4 0 0 0) 0 = 1 :=
  splatToGrid_saturates 64 24 4 0 0 0 [(3:ℚ)/5, 1/2]
    (by norm_num) (by norm_num) (by norm_num)
    (by intro w hw; simp at hw; rcases hw with h | h <;> rw [h] <;> norm_num)
    (by norm_num)

/-- **C9**: for all in-range bin triples the flat index computed by
`splatToGrid` lies inside the array allocated by `createPolarGrid`, and the
map from triples to flat indices is injective: each splat touches exactly one
in-bounds cell and never aliases a different cell. -/
theorem splatIndex_bounds_inj (A R C k j channel : ℕ)
    (hk : k < A) (hj : j < R) (hc : channel < C) :
    splatIndex A C k j channel < (createPolarGrid A R C).size ∧
    ∀ k' j' channel', k' < A → j' < R → channel' < C →
      splatIndex A C k j channel = splatIndex A C k' j' channel' →
      k = k' ∧ j = j' ∧ channel = channel' := by
  constructor
  · simpa [createPolarGrid] using splatIndex_lt A R C k j channel hk hj hc
  · intro k' j' channel' hk' hj' hc' heq
    simp only [splatIndex] at heq
    have hC : 0 < C := by omega
    have e1 : ((j * A + k) * C + channel) % C = channel := by
      rw [Nat.add_comm, Nat.add_mul_mod_self_right]; exact Nat.mod_eq_of_lt hc
    have e2 : ((j' * A + k') * C + channel') % C = channel' := by
      rw [Nat.add_comm, Nat.add_mul_mod_self_right]; exact Nat.mod_eq_of_lt hc'
    have hchan : channel = channel' := by rw [← e1, ← e2, heq]
    subst hchan
    have h2 : j * A + k = j' * A + k' :=
      Nat.eq_of_mul_eq_mul_right hC (by omega : (j * A + k) * C = (j' * A + k') * C)
    have hA : 0 < A := by omega
    have e3 : (j * A + k) % A = k := by
      rw [Nat.add_comm, Nat.add_mul_mod_self_right]; exact Nat.mod_eq_of_lt hk
    have e4 : (j' * A + k') % A = k' := by
      rw [Nat.add_comm, Nat.add_mul_mod_self_right]; exact Nat.mod_eq_of_lt hk'
    have hkk : k = k' := by rw [← e3, ← e4, h2]
    subst hkk
    refine ⟨rfl, ?_, rfl⟩
    exact Nat.eq_of_mul_eq_mul_right hA (by omega)

/-! ## Adaptive normalisation (`normalizeGrid`, injected-script.js 183-190) -/

/-- The per-cell EMA update of line 185:
`emaChannels[i] = EMA_BETA * emaChannels[i] + (1 - EMA_BETA) * grid[i]`. -/
def emaUpdate (beta ema g : ℚ) : ℚ := beta * ema + (1 - beta) * g

/-- The body of the `normalizeGrid` loop for one cell (lines 185-188);
first component is the rescaled grid cell, second the updated EMA cell. -/
def normalizeCell (beta satF g ema : ℚ) : ℚ × ℚ :=
  let e2 := emaUpdate beta ema g
  (if 0 < e2 then min 1 (g / (satF * e2)) else g, e2)

/-- `normalizeGrid` (lines 183-190).  The source mutates `grid` and
`emaChannels` in place; since iteration `i` reads and writes only index `i`
of either array, the loop is embedded as an index-wise map returning the new
`(grid, emaChannels)` pair. -/
def normalizeGrid (beta satF : ℚ) (grid ema : Array ℚ) : Array ℚ × Array ℚ :=
  (Array.ofFn (fun i : Fin grid.size =>
      (normalizeCell beta satF (grid.get i) (ema.getD i.val 0)).1),
   Array.ofFn (fun i : Fin grid.size =>
      (normalizeCell beta satF (grid.get i) (ema.getD i.val 0)).2))

/-- **C4**: one `normalizeGrid` call sets, for every cell `i`,
`emaState[i] = β·emaState[i] + (1-β)·grid[i]`; then, if the updated EMA cell
is positive, `grid[i]` becomes `min(1, grid[i] / (saturationFactor·emaState[i]))`,
and if it is zero the raw grid value is left unchanged. -/
theorem normalizeGrid_cell (beta satF : ℚ) (grid ema : Array ℚ) (i : ℕ)
    (hi : i < grid.size) :
    (normalizeGrid beta satF grid ema).2.getD i 0 =
        beta * ema.getD i 0 + (1 - beta) * grid.getD i 0 ∧
    (0 < beta * ema.getD i 0 + (1 - beta) * grid.getD i 0 →
      (normalizeGrid beta satF grid ema).1.getD i 0 =
        min 1 (grid.getD i 0 /
          (satF * (beta * ema.getD i 0 + (1 - beta) * grid.getD i 0)))) ∧
    (beta * ema.getD i 0 + (1 - beta) * grid.getD i 0 = 0 →
      (normalizeGrid beta satF grid ema).1.getD i 0 = grid.getD i 0) := by
  have hg : grid.getD i 0 = grid.get ⟨i, hi⟩ := by
    simp [Array.getD, hi, Array.get]
  have h2 : (normalizeGrid beta satF grid ema).2.getD i 0 =
      (normalizeCell beta satF (grid.get ⟨i, hi⟩) (ema.getD i 0)).2 := by
    simp only [normalizeGrid, Array.getD, Array.size_ofFn]
    rw [dif_pos hi]
    simp [Array.getElem_ofFn]
  have h1 : (normalizeGrid beta satF grid ema).1.getD i 0 =
      (normalizeCell beta satF (grid.get ⟨i, hi⟩) (ema.getD i 0)).1 := by
    simp only [normalizeGrid, Array.getD, Array.size_ofFn]
    rw [dif_pos hi]
    simp [Array.getElem_ofFn]
  refine ⟨?_, ?_, ?_⟩
  · rw [h2, hg]; rfl
  · intro hpos
    rw [h1, hg]
    rw [hg] at hpos
    simp only [normalizeCell, emaUpdate]
    rw [if_pos hpos]
  · intro hzero
    rw [h1, hg]
    rw [hg] at hzero
    simp only [normalizeCell, emaUpdate]
    rw [if_neg (by rw [hzero]; exact lt_irrefl 0)]

/-- Witness for C4 on a one-cell grid with the default
`β = 0.99, saturationFactor = 3`. -/
theorem normalizeGrid_cell_witness :
    (normalizeGrid (99/100) 3 #[(1:ℚ)/2] #[0]).2.getD 0 0 =
        99/100 * (#[(0:ℚ)].getD 0 0) + (1 - 99/100) * (#[(1:ℚ)/2].getD 0 0) ∧
    (0 < 99/100 * (#[(0:ℚ)].getD 0 0) + (1 - 99/100) * (#[(1:ℚ)/2].getD 0 0) →
      (normalizeGrid (99/100) 3 #[(1:ℚ)/2] #[0]).1.getD 0 0 =
        min 1 ((#[(1:ℚ)/2].getD 0 0) /
          (3 * (99/100 * (#[(0:ℚ)].getD 0 0) + (1 - 99/100) * (#[(1:ℚ)/2].getD 0 0))))) ∧
    (99/100 * (#[(0:ℚ)].getD 0 0) + (1 - 99/100) * (#[(1:ℚ)/2].getD 0 0) = 0 →
      (normalizeGrid (99/100) 3 #[(1:ℚ)/2] #[0]).1.getD 0 0 = #[(1:ℚ)/2].getD 0 0) :=
  normalizeGrid_cell (99/100) 3 #[(1:ℚ)/2] #[0] 0 (by norm_num)

/-- The EMA state of one cell after `n` consecutive `normalizeGrid` calls,
each with the same raw grid value `x` in that cell (the second component of
`normalizeCell` iterated). -/
def emaIter (beta x : ℚ) : ℕ → ℚ → ℚ
  | 0, e => e
  | n + 1, e => emaUpdate beta (emaIter beta x n e) x

lemma emaIter_closed (beta x e0 : ℚ) : ∀ n : ℕ,
    emaIter beta x n e0 = x + beta ^ n * (e0 - x) := by
  intro n
  induction n with
  | zero => simp [emaIter]
  | succ n ih => rw [emaIter, ih, emaUpdate]; ring

lemma emaIter_nonneg (beta x e0 : ℚ) (hb0 : 0 ≤ beta) (hb1 : beta ≤ 1)
    (hx : 0 ≤ x) (he0 : 0 ≤ e0) : ∀ n : ℕ, 0 ≤ emaIter beta x n e0 := by
  intro n
  induction n with
  | zero => exact he0
  | succ n ih =>
    rw [emaIter, emaUpdate]
    have h1 : 0 ≤ beta * emaIter beta x n e0 := mul_nonneg hb0 ih
    have h2 : 0 ≤ (1 - beta) * x := mul_nonneg (by linarith) hx
    linarith

/-- **C8**: with constant raw value `x > 0` in a cell, repeated normalisation
drives the EMA cell monotonically toward `x` — after `n` steps it equals
`x + βⁿ·(ema₀ - x)` — and the normalised output of that cell converges to
`min(1, 1/saturationFactor)`. -/
theorem ema_convergence (beta satF x e0 : ℚ)
    (hb0 : 0 ≤ beta) (hb1 : beta < 1) (hx : 0 < x) (he0 : 0 ≤ e0)
    (hs : 0 < satF) :
    (∀ n, emaIter beta x n e0 = x + beta ^ n * (e0 - x)) ∧
    (∀ n, |emaIter beta x (n + 1) e0 - x| ≤ |emaIter beta x n e0 - x|) ∧
    Filter.Tendsto (fun n => ((emaIter beta x n e0 : ℚ) : ℝ))
      Filter.atTop (nhds ((x : ℚ) : ℝ)) ∧
    Filter.Tendsto
      (fun n => (((normalizeCell beta satF x (emaIter beta x n e0)).1 : ℚ) : ℝ))
      Filter.atTop (nhds (min 1 (1 / ((satF : ℚ) : ℝ)))) := by
  have hclosed := emaIter_closed beta x e0
  have hpow : Filter.Tendsto (fun n : ℕ => ((beta : ℝ)) ^ n)
      Filter.atTop (nhds 0) :=
    tendsto_pow_atTop_nhds_zero_of_lt_one (by exact_mod_cast hb0)
      (by exact_mod_cast hb1)
  have hema : Filter.Tendsto (fun n => ((emaIter beta x n e0 : ℚ) : ℝ))
      Filter.atTop (nhds ((x : ℚ) : ℝ)) := by
    have h1 : Filter.Tendsto
        (fun n : ℕ => ((x : ℝ)) + (beta : ℝ) ^ n * ((e0 : ℝ) - (x : ℝ)))
        Filter.atTop (nhds ((x : ℝ) + 0 * ((e0 : ℝ) - (x : ℝ)))) :=
      Filter.Tendsto.add tendsto_const_nhds (Filter.Tendsto.mul_const _ hpow)
    rw [zero_mul, add_zero] at h1
    refine Filter.Tendsto.congr (fun n => ?_) h1
    rw [hclosed n]
    push_cast
    ring
  refine ⟨hclosed, ?_, hema, ?_⟩
  · intro n
    rw [hclosed n, hclosed (n + 1)]
    have h1 : |x + beta ^ n * (e0 - x) - x| = beta ^ n * |e0 - x| := by
      rw [add_sub_cancel_left, abs_mul, abs_of_nonneg (pow_nonneg hb0 n)]
    have h2 : |x + beta ^ (n + 1) * (e0 - x) - x| = beta ^ (n + 1) * |e0 - x| := by
      rw [add_sub_cancel_left, abs_mul, abs_of_nonneg (pow_nonneg hb0 (n + 1))]
    rw [h1, h2]
    have h3 : beta ^ (n + 1) ≤ beta ^ n := by
      rw [pow_succ]
      calc beta ^ n * beta ≤ beta ^ n * 1 :=
        mul_le_mul_of_nonneg_left (le_of_lt hb1) (pow_nonneg hb0 n)
      _ = beta ^ n := mul_one _
    exact mul_le_mul_of_nonneg_right h3 (abs_nonneg _)
  · -- each output term is min 1 (x / (satF * emaIter (n+1))), which tends to
    -- min 1 (1/satF) as the EMA tends to x
    have hnext : ∀ n : ℕ, 0 < emaUpdate beta (emaIter beta x n e0) x := by
      intro n
      rw [emaUpdate]
      have h1 : 0 ≤ beta * emaIter beta x n e0 :=
        mul_nonneg hb0 (emaIter_nonneg beta x e0 hb0 (le_of_lt hb1)
          (le_of_lt hx) he0 n)
      have h2 : 0 < (1 - beta) * x := mul_pos (by linarith) hx
      linarith
    have hshift : Filter.Tendsto
        (fun n => ((emaIter beta x (n + 1) e0 : ℚ) : ℝ))
        Filter.atTop (nhds ((x : ℚ) : ℝ)) :=
      (Filter.tendsto_add_atTop_iff_nat 1).mpr hema
    have hne : ((satF : ℚ) : ℝ) * ((x : ℚ) : ℝ) ≠ 0 := by
      have : (0 : ℝ) < ((satF : ℚ) : ℝ) * ((x : ℚ) : ℝ) :=
        mul_pos (by exact_mod_cast hs) (by exact_mod_cast hx)
      exact ne_of_gt this
    have hdiv : Filter.Tendsto
        (fun n => ((x : ℚ) : ℝ) / (((satF : ℚ) : ℝ) * ((emaIter beta x (n + 1) e0 : ℚ) : ℝ)))
        Filter.atTop (nhds (((x : ℚ) : ℝ) / (((satF : ℚ) : ℝ) * ((x : ℚ) : ℝ)))) :=
      Filter.Tendsto.div tendsto_const_nhds
        (Filter.Tendsto.const_mul _ hshift) hne
    have hmin : Filter.Tendsto
        (fun n => min 1 (((x : ℚ) : ℝ) / (((satF : ℚ) : ℝ) * ((emaIter beta x (n + 1) e0 : ℚ) : ℝ))))
        Filter.atTop (nhds (min 1 (((x : ℚ) : ℝ) / (((satF : ℚ) : ℝ) * ((x : ℚ) : ℝ))))) :=
      Filter.Tendsto.min tendsto_const_nhds hdiv
    have hval : ((x : ℚ) : ℝ) / (((satF : ℚ) : ℝ) * ((x : ℚ) : ℝ)) =
        1 / ((satF : ℚ) : ℝ) := by
      rw [mul_comm, div_mul_eq_div_div]
      rw [div_self (by exact_mod_cast ne_of_gt hx : ((x : ℚ) : ℝ) ≠ 0)]
    rw [hval] at hmin
    refine Filter.Tendsto.congr (fun n => ?_) hmin
    have houtput : (normalizeCell beta satF x (emaIter beta x n e0)).1 =
        min 1 (x / (satF * emaIter beta x (n + 1) e0)) := by
      simp only [normalizeCell]
      rw [if_pos (hnext n)]
      rfl
    rw [houtput]
    push_cast [Rat.cast_min]
    norm_num

/-- Witness for C8 at the defaults `β = 0.99, saturationFactor = 3, x = 1,
ema₀ = 0`. -/
theorem ema_convergence_witness :
    (∀ n, emaIter (99/100) 1 n 0 = 1 + (99/100 : ℚ) ^ n * (0 - 1)) ∧
    (∀ n, |emaIter (99/100) 1 (n + 1) 0 - 1| ≤ |emaIter (99/100) 1 n 0 - 1|) ∧
    Filter.Tendsto (fun n => ((emaIter (99/100) 1 n 0 : ℚ) : ℝ))
      Filter.atTop (nhds ((1 : ℚ) : ℝ)) ∧
    Filter.Tendsto
      (fun n => (((normalizeCell (99/100) 3 1 (emaIter (99/100) 1 n 0)).1 : ℚ) : ℝ))
      Filter.atTop (nhds (min 1 (1 / ((3 : ℚ) : ℝ)))) :=
  ema_convergence (99/100) 3 1 0 (by norm_num) (by norm_num) (by norm_num)
    (by norm_num) (by norm_num)

/-- Witness for C9 at the default configuration `A=64, R=24, C=4`. -/
theorem splatIndex_bounds_inj_witness :
    splatIndex 64 4 3 5 2 < (createPolarGrid 64 24 4).size ∧
    ∀ k' j' channel', k' < 64 → j' < 24 → channel' < 4 →
      splatIndex 64 4 3 5 2 = splatIndex 64 4 k' j' channel' →
      3 = k' ∧ 5 = j' ∧ 2 = channel' :=
  splatIndex_bounds_inj 64 24 4 3 5 2 (by norm_num) (by norm_num) (by norm_num)

/-! ## Sampling state machine (injected-script.js lines 8-44, 192-333, 348-365) -/

/-- The configuration fields of `CONFIG` (lines 8-25) consumed by the
sampling pipeline. -/
structure Config where
  ANGULAR_BINS : ℕ
  RADIAL_BINS : ℕ
  CHANNELS : ℕ
  CH_FOOD : ℕ
  CH_ENEMY_BODY : ℕ
  CH_MY_BODY : ℕ
  CH_ENEMY_HEADS : ℕ
  ALPHA_WARP : ℝ
  R_MIN : ℝ
  R_MAX : ℝ
  EMA_BETA : ℚ
  SATURATION_FACTOR : ℚ

/-- `gameState` (lines 28-35). -/
structure GameState where
  gameRadius : Option ℝ
  isActive : Bool
  sessionId : Option String
  frameCount : ℕ
  validFrames : ℕ
  errors : ℕ

/-- `samplingState` (lines 37-44); the installed `setInterval` handle is
modelled by the boolean `samplingInterval`. -/
structure SamplingState where
  lastSampleTime : ℝ
  previousPosition : Option (ℝ × ℝ)
  emaChannels : Option (Array ℚ)
  isBoosting : Bool
  isCollecting : Bool
  samplingInterval : Bool

/-- A food item read from the game globals; `valid` stands for the source's
per-entity filter "non-null object with numeric, non-NaN coordinates"
(lines 110-111), which has no finer rational/real counterpart. -/
structure Food where
  valid : Bool
  xx : ℝ
  yy : ℝ
  sz : Option ℚ

/-- One body segment (lines 148-150, same validity filter as food). -/
structure SnakePoint where
  valid : Bool
  xx : ℝ
  yy : ℝ

/-- A snake read from the game globals; `isMe` models the identity test
`snake === mySnake` (line 144), and `pts = none` the missing/non-array case
(line 142). -/
structure Snake where
  xx : ℝ
  yy : ℝ
  ang : ℝ
  scl : Option ℚ
  pts : Option (List SnakePoint)
  isMe : Bool

/-- JS truthiness fallback `x || d` for an optional numeric field: a missing
value and `0` both fall back to the default. -/
def orDefault (x : Option ℚ) (d : ℚ) : ℚ :=
  match x with
  | none => d
  | some s => if s = 0 then d else s

/-- JS truthiness fallback for an optional real (`gameState.gameRadius ||
21600`, line 248). -/
noncomputable def rOrDefault (x : Option ℝ) (d : ℝ) : ℝ :=
  match x with
  | none => d
  | some s => if s = 0 then d else s

/-- `populateGridWithFood` (lines 101-129): rotate each valid food item into
the observer-heading frame, transform, and splat `(sz || 1) * 0.1` into the
food channel; returns the updated grid and the hit count. -/
noncomputable def populateGridWithFood (cfg : Config) (grid : Array ℚ)
    (mySnake : Snake) (foods : List Food) : Array ℚ × ℕ :=
  let cos_ang := Real.cos mySnake.ang
  let sin_ang := Real.sin mySnake.ang
  foods.foldl (fun acc food =>
    if food.valid then
      let dx := food.xx - mySnake.xx
      let dy := food.yy - mySnake.yy
      let u := dx * cos_ang + dy * sin_ang
      let v := -dx * sin_ang + dy * cos_ang
      match getPolarIndex u v cfg.ANGULAR_BINS cfg.RADIAL_BINS cfg.R_MIN
          cfg.R_MAX cfg.ALPHA_WARP with
      | some kj =>
        (splatToGrid cfg.ANGULAR_BINS cfg.CHANNELS acc.1 kj.1.toNat kj.2.toNat
           cfg.CH_FOOD (orDefault food.sz 1 * (1 / 10)), acc.2 + 1)
      | none => acc
    else acc) (grid, 0)

/-- The `{enemySegments, mySegments, enemyHeads}` counters of
`populateGridWithSnakes`. -/
structure SnakeCounts where
  enemySegments : ℕ
  mySegments : ℕ
  enemyHeads : ℕ

/-- `populateGridWithSnakes` (lines 131-181): splat every valid segment of
every snake with weight `(scl || 1) * 0.3` into the own-body or enemy-body
channel, and the first segment (index 0) of every enemy additionally into the
enemy-heads channel at double weight. -/
noncomputable def populateGridWithSnakes (cfg : Config) (grid : Array ℚ)
    (mySnake : Snake) (snakes : List Snake) : Array ℚ × SnakeCounts :=
  let cos_ang := Real.cos mySnake.ang
  let sin_ang := Real.sin mySnake.ang
  snakes.foldl (fun acc snake =>
    match snake.pts with
    | none => acc
    | some pts =>
      pts.enum.foldl (fun acc2 ip =>
        let segment := ip.2
        if segment.valid then
          let dx := segment.xx - mySnake.xx
          let dy := segment.yy - mySnake.yy
          let u := dx * cos_ang + dy * sin_ang
          let v := -dx * sin_ang + dy * cos_ang
          match getPolarIndex u v cfg.ANGULAR_BINS cfg.RADIAL_BINS cfg.R_MIN
              cfg.R_MAX cfg.ALPHA_WARP with
          | some kj =>
            let weight := orDefault snake.scl 1 * (3 / 10)
            if snake.isMe then
              (splatToGrid cfg.ANGULAR_BINS cfg.CHANNELS acc2.1 kj.1.toNat
                 kj.2.toNat cfg.CH_MY_BODY weight,
               { acc2.2 with mySegments := acc2.2.mySegments + 1 })
            else
              let g1 := splatToGrid cfg.ANGULAR_BINS cfg.CHANNELS acc2.1
                kj.1.toNat kj.2.toNat cfg.CH_ENEMY_BODY weight
              let c1 := { acc2.2 with enemySegments := acc2.2.enemySegments + 1 }
              if ip.1 = 0 then
                (splatToGrid cfg.ANGULAR_BINS cfg.CHANNELS g1 kj.1.toNat
                   kj.2.toNat cfg.CH_ENEMY_HEADS (weight * 2),
                 { c1 with enemyHeads := c1.enemyHeads + 1 })
              else (g1, c1)
          | none => acc2
        else acc2) acc) (grid, ⟨0, 0, 0⟩)

/-- The mouse-position snapshot of `getMousePosition` (lines 91-98), already
with the JS `|| defaults` applied by the caller's environment. -/
structure Mouse where
  x : ℝ
  y : ℝ
  screenWidth : ℝ
  screenHeight : ℝ

/-- `capturePlayerInput` (lines 192-210). -/
noncomputable def capturePlayerInput (mouse : Mouse) (mySnake : Snake)
    (isBoosting : Bool) : ℝ × ℝ × ℕ :=
  let centerX := mouse.screenWidth / 2
  let centerY := mouse.screenHeight / 2
  let dx := (mouse.x - centerX) / centerX
  let dy := (mouse.y - centerY) / centerY
  let cos_ang := Real.cos mySnake.ang
  let sin_ang := Real.sin mySnake.ang
  let mx := dx * cos_ang + dy * sin_ang
  let my := -dx * sin_ang + dy * cos_ang
  let norm := max 1 (hypot mx my)
  (mx / norm, my / norm, if isBoosting then 1 else 0)

/-- The `dataPackage` frame record (lines 272-315), restricted to the fields
whose inputs the embedding models. -/
structure Frame where
  timestamp : ℝ
  sessionId : Option String
  frameIndex : ℕ
  deltaTime : ℝ
  grid : Array ℚ
  heading : ℝ
  velocity : ℝ
  boost : Bool
  distanceToBorder : ℝ
  gameRadius : ℝ
  snakeLength : ℕ
  playerInput : ℝ × ℝ × ℕ
  foodCount : ℕ
  counts : SnakeCounts

/-- `sampleGameState` (lines 212-333).  Inputs that the source reads from
the page (`performance.now()`, the snake/food globals, the mouse) are passed
as arguments; emitting the frame via `postMessage` is modelled by the
`Option Frame` component of the result.  The `try/catch` blocks guard
host-environment exceptions, which the total embedding cannot raise. -/
noncomputable def sampleGameState (cfg : Config) (now : ℝ)
    (mySnake? : Option Snake) (foods : List Food) (snakes : List Snake)
    (mouse : Mouse) (gs : GameState) (ss : SamplingState) :
    GameState × SamplingState × Option Frame :=
  if ss.isCollecting then
    let deltaTime := (now - ss.lastSampleTime) / 1000
    let gs1 : GameState := { gs with frameCount := gs.frameCount + 1 }
    match mySnake? with
    | none => (gs1, ss, none)
    | some mySnake =>
      if mySnake.xx = 0 ∨ mySnake.yy = 0 then (gs1, ss, none)
      else
        let currentPos := (mySnake.xx, mySnake.yy)
        let velocity :=
          match ss.previousPosition with
          | some p =>
            if deltaTime > 0 then
              hypot (currentPos.1 - p.1) (currentPos.2 - p.2) / deltaTime
            else 0
          | none => 0
        let ss1 : SamplingState := { ss with previousPosition := some currentPos }
        let gameRadius := rOrDefault gs.gameRadius 21600
        let distanceToCenter :=
          hypot (mySnake.xx - gameRadius) (mySnake.yy - gameRadius)
        let distanceToBorder := max 0 (gameRadius - distanceToCenter)
        let grid0 := createPolarGrid cfg.ANGULAR_BINS cfg.RADIAL_BINS cfg.CHANNELS
        let fed := populateGridWithFood cfg grid0 mySnake foods
        let sned := populateGridWithSnakes cfg fed.1 mySnake snakes
        let normed := normalizeGrid cfg.EMA_BETA cfg.SATURATION_FACTOR sned.1
          (ss.emaChannels.getD #[])
        let frame : Frame := {
          timestamp := now
          sessionId := gs.sessionId
          frameIndex := gs1.frameCount
          deltaTime := deltaTime
          grid := normed.1
          heading := mySnake.ang
          velocity := velocity
          boost := ss.isBoosting
          distanceToBorder := distanceToBorder
          gameRadius := gameRadius
          snakeLength := (mySnake.pts.getD []).length
          playerInput := capturePlayerInput mouse mySnake ss.isBoosting
          foodCount := fed.2
          counts := sned.2 }
        ({ gs1 with validFrames := gs1.validFrames + 1 },
         { ss1 with lastSampleTime := now, emaChannels := some normed.2 },
         some frame)
  else (gs, ss, none)

/-- `startCollection` (injected-script.js lines 348-365).  `Date.now()` is
passed in as `now`; installing the `setInterval` timer is the
`samplingInterval` flag; the `postMessage` status notification carries no
collector state and is not part of the returned state. -/
def startCollection (cfg : Config) (now : ℕ) (gs : GameState)
    (ss : SamplingState) : GameState × SamplingState :=
  if ss.isCollecting then (gs, ss)
  else
    ({ gs with sessionId := some (toString now) },
     { ss with isCollecting := true,
               emaChannels := some (Array.mkArray
                 (cfg.ANGULAR_BINS * cfg.RADIAL_BINS * cfg.CHANNELS) 0),
               samplingInterval := true })

/-- **C5 (amended)**: the Idle→Collecting transition allocates a fresh zeroed
EMA array of size `A·R·C` and assigns a session identifier derived from the
current time, while the frame and error counters are left *unchanged* (the
source never resets them); if already collecting the call does nothing. -/
theorem startCollection_spec (cfg : Config) (now : ℕ) (gs : GameState)
    (ss : SamplingState) :
    (ss.isCollecting = true → startCollection cfg now gs ss = (gs, ss)) ∧
    (ss.isCollecting = false →
      startCollection cfg now gs ss =
        ({ gs with sessionId := some (toString now) },
         { ss with isCollecting := true,
                   emaChannels := some (Array.mkArray
                     (cfg.ANGULAR_BINS * cfg.RADIAL_BINS * cfg.CHANNELS) 0),
                   samplingInterval := true })) ∧
    (startCollection cfg now gs ss).1.frameCount = gs.frameCount ∧
    (startCollection cfg now gs ss).1.errors = gs.errors := by
  refine ⟨?_, ?_, ?_, ?_⟩
  · intro h; rw [startCollection, if_pos h]
  · intro h; rw [startCollection, if_neg (by rw [h]; exact Bool.false_ne_true)]
  · rw [startCollection]
    by_cases h : ss.isCollecting = true
    · rw [if_pos h]
    · rw [if_neg h]
  · rw [startCollection]
    by_cases h : ss.isCollecting = true
    · rw [if_pos h]
    · rw [if_neg h]

/-- Counterexample for C5 as stated: starting collection from Idle with
`frameCount = 7` and `errors = 3` leaves both counters at their old values —
they are not reset to zero. -/
theorem startCollection_no_counter_reset :
    (startCollection ⟨64, 24, 4, 0, 1, 2, 3, 6, 60, 3200, 99/100, 3⟩ 123
      ⟨none, false, none, 7, 2, 3⟩ ⟨0, none, none, false, false, false⟩).1.frameCount = 7 ∧
    (startCollection ⟨64, 24, 4, 0, 1, 2, 3, 6, 60, 3200, 99/100, 3⟩ 123
      ⟨none, false, none, 7, 2, 3⟩ ⟨0, none, none, false, false, false⟩).1.errors = 3 ∧
    ¬ (startCollection ⟨64, 24, 4, 0, 1, 2, 3, 6, 60, 3200, 99/100, 3⟩ 123
      ⟨none, false, none, 7, 2, 3⟩ ⟨0, none, none, false, false, false⟩).1.frameCount = 0 := by
  refine ⟨rfl, rfl, ?_⟩
  intro h
  have h7 : (startCollection ⟨64, 24, 4, 0, 1, 2, 3, 6, 60, 3200, 99/100, 3⟩ 123
      ⟨none, false, none, 7, 2, 3⟩ ⟨0, none, none, false, false, false⟩).1.frameCount = 7 := rfl
  rw [h] at h7
  exact absurd h7 (by norm_num)

/-- Witness for C5: the amended spec applied to a concrete Idle state and a
concrete already-Collecting state. -/
theorem startCollection_spec_witness :
    startCollection ⟨64, 24, 4, 0, 1, 2, 3, 6, 60, 3200, 99/100, 3⟩ 123
      ⟨none, false, none, 7, 2, 3⟩ ⟨0, none, none, false, false, false⟩ =
      ({ (⟨none, false, none, 7, 2, 3⟩ : GameState) with
           sessionId := some (toString (123 : ℕ)) },
       { (⟨0, none, none, false, false, false⟩ : SamplingState) with
           isCollecting := true,
           emaChannels := some (Array.mkArray (64 * 24 * 4) 0),
           samplingInterval := true }) ∧
    startCollection ⟨64, 24, 4, 0, 1, 2, 3, 6, 60, 3200, 99/100, 3⟩ 123
      ⟨none, false, none, 7, 2, 3⟩ ⟨0, none, none, false, true, false⟩ =
      (⟨none, false, none, 7, 2, 3⟩, ⟨0, none, none, false, true, false⟩) :=
  ⟨(startCollection_spec ⟨64, 24, 4, 0, 1, 2, 3, 6, 60, 3200, 99/100, 3⟩ 123
      ⟨none, false, none, 7, 2, 3⟩ ⟨0, none, none, false, false, false⟩).2.1 rfl,
   (startCollection_spec ⟨64, 24, 4, 0, 1, 2, 3, 6, 60, 3200, 99/100, 3⟩ 123
      ⟨none, false, none, 7, 2, 3⟩ ⟨0, none, none, false, true, false⟩).1 rfl⟩

/-- **C10**: on a collecting tick where the snake object exists but `xx` or
`yy` is exactly `0` (JS truthiness, not presence), `sampleGameState` bumps
the frame counter and returns with no frame emitted, no grid built, and the
error counter and sampling state untouched. -/
theorem sampleGameState_zero_position (cfg : Config) (now : ℝ) (sn : Snake)
    (foods : List Food) (snakes : List Snake) (mouse : Mouse)
    (gs : GameState) (ss : SamplingState)
    (hcoll : ss.isCollecting = true)
    (hzero : sn.xx = 0 ∨ sn.yy = 0) :
    sampleGameState cfg now (some sn) foods snakes mouse gs ss =
      ({ gs with frameCount := gs.frameCount + 1 }, ss, none) := by
  rw [sampleGameState, if_pos hcoll]
  simp only [if_pos hzero]

/-- Witness for C10: a concrete snake at `xx = 0` during collection. -/
theorem sampleGameState_zero_position_witness :
    sampleGameState ⟨64, 24, 4, 0, 1, 2, 3, 6, 60, 3200, 99/100, 3⟩ 123
      (some ⟨0, 5, 0, none, none, true⟩) [] [] ⟨0, 0, 800, 600⟩
      ⟨none, false, none, 7, 2, 3⟩ ⟨0, none, none, false, true, true⟩ =
      ({ (⟨none, false, none, 7, 2, 3⟩ : GameState) with frameCount := 7 + 1 },
       ⟨0, none, none, false, true, true⟩, none) :=
  sampleGameState_zero_position ⟨64, 24, 4, 0, 1, 2, 3, 6, 60, 3200, 99/100, 3⟩
    123 ⟨0, 5, 0, none, none, true⟩ [] [] ⟨0, 0, 800, 600⟩
    ⟨none, false, none, 7, 2, 3⟩ ⟨0, none, none, false, true, true⟩
    rfl (Or.inl rfl)

end Slither
